import Mathlib

/-!
Verification of the Speedcubicle backend's order-fulfillment core.

The embedding models the final revision of the Express server
(`src/unnamed/part_000`, lines 615-821) together with the standalone
serverless webhook handler (`src/api/webhook.js`):

* the `products` and `orders` tables of the Postgres database,
* the `/api/orders` direct-order handler,
* the `/webhook` Stripe webhook handler (with its DB fallback for a
  missing metadata manifest),
* the `/api/create-checkout-session` handler, and
* the serialization of line items into the `orders.products` text column
  (`JSON.stringify` on `[{"id":..,"quantity":..}, ...]` arrays, modelled by
  an executable serializer and parser over exactly that grammar).

Prices, stock counts and quantities are modelled as integers (the JS code
manipulates JSON numbers; no claim under scrutiny depends on float
rounding).  External effects (Stripe signature verification, the Stripe
charge, e-mail) are modelled as oracle inputs, since the code only
branches on their success.
-/

/-- A line item as it appears in request bodies, in checkout-session
metadata, and serialized into the `orders.products` column: the product
id, the quantity, and the optional client-supplied `price` field (which
the order handlers never read, but which travels with the item). -/
structure ReqItem where
  id : Int
  quantity : Int
  price : Option Int := none
deriving DecidableEq, Repr

/-- The decimal digit characters. -/
def digitChar : Nat → Char
  | 0 => '0' | 1 => '1' | 2 => '2' | 3 => '3' | 4 => '4'
  | 5 => '5' | 6 => '6' | 7 => '7' | 8 => '8' | _ => '9'

/-- Numeric value of a digit character. -/
def digitVal (c : Char) : Nat := c.toNat - 48

/-- Whether a character is a decimal digit. -/
def isDigitChar (c : Char) : Bool := decide (48 ≤ c.toNat) && decide (c.toNat ≤ 57)

/-- Decimal digits of `n`, most significant first; `fuel` bounds recursion
depth (any `fuel > n` is enough). -/
def natCharsAux : Nat → Nat → List Char
  | 0, _ => []
  | fuel + 1, n =>
    if n < 10 then [digitChar n]
    else natCharsAux fuel (n / 10) ++ [digitChar (n % 10)]

/-- Decimal digits of a natural number, most significant first. -/
def natChars (n : Nat) : List Char := natCharsAux (n + 1) n

/-- Decimal representation of an integer. -/
def intChars (n : Int) : List Char :=
  if n < 0 then '-' :: natChars (-n).toNat else natChars n.toNat

/-- Consume a maximal run of digit characters, accumulating their value. -/
def parseNatAux : List Char → Nat → Nat × List Char
  | [], acc => (acc, [])
  | c :: cs, acc =>
    if isDigitChar c then parseNatAux cs (acc * 10 + digitVal c) else (acc, c :: cs)

/-- Parse a nonempty run of digits into a natural number. -/
def parseNat : List Char → Option (Nat × List Char)
  | [] => none
  | c :: cs => if isDigitChar c then some (parseNatAux cs (digitVal c)) else none

/-- Parse an optionally signed decimal integer. -/
def parseInt : List Char → Option (Int × List Char)
  | [] => none
  | c :: cs =>
    if c = '-' then
      match parseNat cs with
      | none => none
      | some (m, rest) => some (-(m : Int), rest)
    else
      match parseNat (c :: cs) with
      | none => none
      | some (m, rest) => some ((m : Int), rest)

/-- Match an exact sequence of characters, returning the remainder. -/
def expectChars : List Char → List Char → Option (List Char)
  | [], cs => some cs
  | _ :: _, [] => none
  | p :: ps, c :: cs => if c = p then expectChars ps cs else none

/-- The characters opening a serialized item: brace, `"id":`. -/
def idKey : List Char := '\x7b' :: '\"' :: 'i' :: 'd' :: '\"' :: ':' :: []

/-- The characters introducing the quantity field: `,"quantity":`. -/
def qtyKey : List Char :=
  ',' :: '\"' :: 'q' :: 'u' :: 'a' :: 'n' :: 't' :: 'i' :: 't' :: 'y' :: '\"' :: ':' :: []

/-- The characters introducing the optional price field: `,"price":`. -/
def priceKey : List Char :=
  ',' :: '\"' :: 'p' :: 'r' :: 'i' :: 'c' :: 'e' :: '\"' :: ':' :: []

/-- Serialize one item the way `JSON.stringify` lays it out: the id and
quantity fields, with an optional price field before the closing brace. -/
def serializeItemChars (i : ReqItem) : List Char :=
  idKey ++ intChars i.id ++ qtyKey ++ intChars i.quantity ++
    (match i.price with
     | none => []
     | some p => priceKey ++ intChars p) ++ ['\x7d']

/-- Serialize the items of a nonempty array body, including the closing
bracket (the empty list yields just `]`). -/
def serializeItemsAux : List ReqItem → List Char
  | [] => [']']
  | i :: is =>
    serializeItemChars i ++
      (match is with
       | [] => [']']
       | _ :: _ => ',' :: serializeItemsAux is)

/-- Serialize an item list as the JSON array `JSON.stringify` produces. -/
def serializeItems (l : List ReqItem) : String := String.mk ('[' :: serializeItemsAux l)

/-- Parse one serialized item. -/
def parseItem (cs0 : List Char) : Option (ReqItem × List Char) :=
  match expectChars idKey cs0 with
  | none => none
  | some cs1 =>
  match parseInt cs1 with
  | none => none
  | some (i, cs2) =>
  match expectChars qtyKey cs2 with
  | none => none
  | some cs3 =>
  match parseInt cs3 with
  | none => none
  | some (q, cs4) =>
  match cs4 with
  | [] => none
  | c :: rest =>
    if c = '\x7d' then some ({ id := i, quantity := q, price := none }, rest)
    else if c = ',' then
      match expectChars priceKey cs4 with
      | none => none
      | some cs5 =>
      match parseInt cs5 with
      | none => none
      | some (p, cs6) =>
      match cs6 with
      | [] => none
      | c2 :: rest2 =>
        if c2 = '\x7d' then some ({ id := i, quantity := q, price := some p }, rest2)
        else none
    else none

/-- Parse a comma-separated run of items terminated by `]`; `fuel` bounds
the number of items. -/
def parseItemsCore : Nat → List Char → Option (List ReqItem × List Char)
  | 0, _ => none
  | fuel + 1, cs =>
    match parseItem cs with
    | none => none
    | some (i, cs1) =>
      match cs1 with
      | [] => none
      | c :: cs2 =>
        if c = ']' then some ([i], cs2)
        else if c = ',' then
          match parseItemsCore fuel cs2 with
          | none => none
          | some (is, rest) => some (i :: is, rest)
        else none

/-- Parse a serialized item array (model of `JSON.parse` on the strings
this system writes); fails on anything outside that grammar, matching the
`try`/`catch` treatment of unparsable manifests in the handlers. -/
def parseItems (s : String) : Option (List ReqItem) :=
  match s.data with
  | [] => none
  | c :: cs =>
    if c = '[' then
      match cs with
      | [] => none
      | c2 :: cs2 =>
        if c2 = ']' then (if cs2 = [] then some [] else none)
        else
          match parseItemsCore cs.length cs with
          | none => none
          | some (is, rest) => if rest = [] then some is else none
    else none

/-- A character list that does not begin with a digit (so a maximal digit
run ends right before it). -/
def noDigitHead : List Char → Prop
  | [] => True
  | c :: _ => isDigitChar c = false

/-- A row of the `products` table.  `stock` is an `Int`: the SQL
`UPDATE products SET stock = stock - $1` performs plain integer
subtraction, so the model must be able to represent negative values. -/
structure Product where
  id : Int
  price : Int
  stock : Int
deriving DecidableEq, Repr

/-- A row of the `orders` table as written by
`INSERT INTO orders(email, products, total, status)`: the `products`
column holds the `JSON.stringify`-serialized line items. -/
structure Order where
  email : Option String
  products : String
  total : Int
  status : String
deriving DecidableEq, Repr

/-- The database state.  Orders are listed in insertion order, matching
the serial `id` column used by `ORDER BY id DESC`. -/
structure Db where
  products : List Product
  orders : List Order
deriving DecidableEq, Repr

/-- Model of `SELECT price, stock FROM products WHERE id=$1` (first matching row). -/
def findProduct (db : Db) (pid : Int) : Option Product :=
  db.products.find? (fun p => p.id == pid)

/-- Model of `UPDATE products SET stock = stock - $1 WHERE id=$2`. -/
def updateStock (db : Db) (pid : Int) (q : Int) : Db :=
  { db with products :=
      db.products.map (fun p => if p.id == pid then { p with stock := p.stock - q } else p) }

/-- Model of `INSERT INTO orders(...)`: appends a row (serial ids ascend). -/
def insertOrder (db : Db) (o : Order) : Db :=
  { db with orders := db.orders ++ [o] }

/-- Model of `SELECT products FROM orders WHERE email=$1 ORDER BY id DESC LIMIT 1`. -/
def findLatestByEmail (db : Db) (e : String) : Option Order :=
  (db.orders.filter (fun o => o.email == some e)).getLast?

/-- The stock stored for a product id (first matching row), if present. -/
def stockOf (db : Db) (pid : Int) : Option Int :=
  (findProduct db pid).map (fun p => p.stock)

/-- The ledger price stored for a product id, if present. -/
def priceOf (db : Db) (pid : Int) : Option Int :=
  (findProduct db pid).map (fun p => p.price)

/-- Sum of ledger price times requested quantity over a list of items;
items whose product id is absent from the ledger contribute 0 (the
webhook loop continues over them). -/
def ledgerTotal (db : Db) (items : List ReqItem) : Int :=
  (items.map (fun i => ((priceOf db i.id).getD 0) * i.quantity)).sum

/-- The request body of `POST /api/orders`. -/
structure OrderRequest where
  email : Option String
  items : Option (List ReqItem)
  paymentMethodId : Option String
deriving DecidableEq, Repr

/-- JavaScript truthiness of an optional string (`undefined`, `null` and
the empty string are falsy). -/
def strTruthy : Option String → Bool
  | none => false
  | some s => !(s == "")

/-- JavaScript truthiness of `items?.length`: false when `items` is
absent or empty. -/
def itemsTruthy : Option (List ReqItem) → Bool
  | none => false
  | some l => !l.isEmpty

/-- The 400-level inventory failures of the direct order handler. -/
inductive OrderError
  | productNotFound (pid : Int)
  | insufficientStock (pid : Int)
deriving DecidableEq, Repr

/-- The first loop of the handler: per item, re-read `price`/`stock`,
400 on a missing product, 400 when `stock < quantity`, otherwise
accumulate `price * quantity` into the total. -/
def checkItems (db : Db) : List ReqItem → Except OrderError Int
  | [] => .ok 0
  | i :: rest =>
    match findProduct db i.id with
    | none => .error (.productNotFound i.id)
    | some p =>
      if p.stock < i.quantity then .error (.insufficientStock i.id)
      else
        match checkItems db rest with
        | .error e => .error e
        | .ok t => .ok (p.price * i.quantity + t)

/-- The second loop of the handler: decrement stock for every item. -/
def applyDecrements (db : Db) (items : List ReqItem) : Db :=
  items.foldl (fun d i => updateStock d i.id i.quantity) db

/-- Outcome of `POST /api/orders`. -/
inductive ApiResult
  | missingFields
  | inventoryError (e : OrderError)
  | serverError
  | success (o : Order)
deriving DecidableEq, Repr

/-- HTTP status of each direct-order outcome. -/
def apiStatus : ApiResult → Nat
  | .missingFields => 400
  | .inventoryError _ => 400
  | .serverError => 500
  | .success _ => 200

/-- The `POST /api/orders` handler (`src/unnamed/part_000`, lines
747-785).  `chargeOk` is the outcome of the external Stripe
`paymentIntents.create` call: when it throws, the surrounding `catch`
returns a 500 before any stock was touched. -/
def apiOrders (req : OrderRequest) (chargeOk : Bool) (db : Db) : ApiResult × Db :=
  if !(strTruthy req.email) || !(itemsTruthy req.items) || !(strTruthy req.paymentMethodId) then
    (.missingFields, db)
  else
    let items := req.items.getD []
    match checkItems db items with
    | .error e => (.inventoryError e, db)
    | .ok total =>
      if !chargeOk then (.serverError, db)
      else
        let o : Order :=
          { email := req.email, products := serializeItems items, total := total,
            status := "paid" }
        (.success o, insertOrder (applyDecrements db items) o)

/-- The `data.object` of a Stripe `checkout.session.completed` event:
the customer e-mail and the raw `metadata.items` string (absent when the
session carried no manifest). -/
structure Session where
  customer_email : Option String
  metadata_items : Option String
deriving DecidableEq, Repr

/-- A verified Stripe event.  The handlers never read `id`: that is the
heart of the idempotency question. -/
structure Event where
  id : String
  type : String
  session : Session
deriving DecidableEq, Repr

/-- Items recovered from the session metadata: `JSON.parse` inside
`try`/`catch`, items staying `[]` when the field is absent or does not
parse. -/
def manifestItems (s : Session) : List ReqItem :=
  match s.metadata_items with
  | none => []
  | some str => (parseItems str).getD []

/-- One storage (or signature) access performed by a webhook handler,
for frame reasoning. -/
inductive Access
  | sigVerify
  | readProduct (pid : Int)
  | writeStock (pid : Int)
  | readOrdersByEmail (e : String)
  | writeOrder
deriving DecidableEq, Repr

/-- The fulfillment loop of both webhook handlers: per item, read
`price`/`stock`; a missing product is skipped (`continue`), otherwise
`price * quantity` is added to the total and stock is decremented
unconditionally. -/
def webhookItemsLoop : List ReqItem → Db → Int × Db × List Access
  | [], db => (0, db, [])
  | i :: rest, db =>
    match findProduct db i.id with
    | none =>
      let r := webhookItemsLoop rest db
      (r.1, r.2.1, .readProduct i.id :: r.2.2)
    | some p =>
      let r := webhookItemsLoop rest (updateStock db i.id i.quantity)
      (p.price * i.quantity + r.1, r.2.1, .readProduct i.id :: .writeStock i.id :: r.2.2)

/-- The candidate item list of the Express webhook: the metadata
manifest when nonempty, otherwise (for a truthy e-mail) the items of the
latest prior order for that e-mail, `[]` when that lookup finds nothing
or its `products` column does not parse. -/
def effectiveItems (ev : Event) (db : Db) : List ReqItem :=
  let items0 := manifestItems ev.session
  if items0.isEmpty && strTruthy ev.session.customer_email then
    match findLatestByEmail db (ev.session.customer_email.getD "") with
    | some o => (parseItems o.products).getD []
    | none => []
  else items0

/-- Outcome of a webhook delivery. -/
inductive HookResult
  | sigError
  | received
deriving DecidableEq, Repr

/-- HTTP status of each webhook outcome. -/
def hookStatus : HookResult → Nat
  | .sigError => 400
  | .received => 200

/-- The Express `POST /webhook` handler (`src/unnamed/part_000`, lines
633-694).  `verified` is the outcome of `stripe.webhooks.constructEvent`:
`none` when signature verification throws.  Returns the HTTP outcome,
the new database, and the trace of storage accesses performed. -/
def webhook (verified : Option Event) (db : Db) : HookResult × Db × List Access :=
  match verified with
  | none => (.sigError, db, [.sigVerify])
  | some ev =>
    if ev.type == "checkout.session.completed" then
      let items := effectiveItems ev db
      let fbTrace : List Access :=
        if (manifestItems ev.session).isEmpty && strTruthy ev.session.customer_email then
          [.readOrdersByEmail (ev.session.customer_email.getD "")]
        else []
      let r := webhookItemsLoop items db
      let o : Order :=
        { email := ev.session.customer_email, products := serializeItems items,
          total := r.1, status := "paid" }
      (.received, insertOrder r.2.1 o, .sigVerify :: (fbTrace ++ (r.2.2 ++ [.writeOrder])))
    else (.received, db, [.sigVerify])

/-- Outcome of the serverless webhook handler. -/
inductive VercelResult
  | methodNotAllowed
  | sigError
  | received
deriving DecidableEq, Repr

/-- HTTP status of each serverless-webhook outcome. -/
def vercelStatus : VercelResult → Nat
  | .methodNotAllowed => 405
  | .sigError => 400
  | .received => 200

/-- The standalone `src/api/webhook.js` handler: rejects non-POST
requests with 405 before anything else, then verifies the signature,
then runs the same fulfillment loop as the Express webhook but with no
DB fallback for a missing manifest. -/
def vercelHandler (method : String) (verified : Option Event) (db : Db) :
    VercelResult × Db × List Access :=
  if !(method == "POST") then (.methodNotAllowed, db, [])
  else
    match verified with
    | none => (.sigError, db, [.sigVerify])
    | some ev =>
      if ev.type == "checkout.session.completed" then
        let items := manifestItems ev.session
        let r := webhookItemsLoop items db
        let o : Order :=
          { email := ev.session.customer_email, products := serializeItems items,
            total := r.1, status := "paid" }
        (.received, insertOrder r.2.1 o, .sigVerify :: (r.2.2 ++ [.writeOrder]))
      else (.received, db, [.sigVerify])

/-- An item of the checkout-session request body; unlike the order
handlers, this endpoint also reads the caller-supplied `price` and `name`. -/
structure SessionItem where
  id : Int
  quantity : Int
  price : Option Int := none
  name : Option String := none
deriving DecidableEq, Repr

/-- A Stripe hosted-checkout line item (`price_data` flattened). -/
structure LineItem where
  name : String
  unit_amount : Int
  quantity : Int
deriving DecidableEq, Repr

/-- The request body of `POST /api/create-checkout-session`. -/
structure CheckoutSessionRequest where
  email : Option String
  items : List SessionItem
deriving DecidableEq, Repr

/-- The hosted session the handler asks Stripe to create. -/
structure HostedSession where
  line_items : List LineItem
  customer_email : Option String
  metadata_items : String
deriving DecidableEq, Repr

/-- The display name: `i.name` when truthy, otherwise a product-id label. -/
def productLabel (i : SessionItem) : String :=
  match i.name with
  | some n => if n == "" then "Product " ++ toString i.id else n
  | none => "Product " ++ toString i.id

/-- One gateway line item: `unit_amount` is `Math.round((i.price || 0) * 100)`
with integer prices, and the caller quantity. -/
def toLineItem (i : SessionItem) : LineItem :=
  { name := productLabel i, unit_amount := (i.price.getD 0) * 100, quantity := i.quantity }

/-- The `{productId, quantity}` projection embedded as metadata:
`items.map(i => (\x7b id: i.id, quantity: i.quantity \x7d))`. -/
def manifestOf (items : List SessionItem) : List ReqItem :=
  items.map (fun i => { id := i.id, quantity := i.quantity, price := none })

/-- The `POST /api/create-checkout-session` handler
(`src/unnamed/part_000`, lines 788-818): builds line items from the
caller request body and serializes the `{id, quantity}` manifest into
the session metadata.  It performs no database access. -/
def createCheckoutSession (req : CheckoutSessionRequest) : HostedSession :=
  { line_items := req.items.map toLineItem
  , customer_email := req.email
  , metadata_items := serializeItems (manifestOf req.items) }

/-- Whether an access touches the product or order storage (as opposed to
the signature check). -/
def isStorageAccess : Access → Bool
  | .sigVerify => false
  | .readProduct _ => true
  | .writeStock _ => true
  | .readOrdersByEmail _ => true
  | .writeOrder => true

/-! ### Theorems -/

theorem expectChars_append (pre rest : List Char) :
    expectChars pre (pre ++ rest) = some rest := by
  induction pre with
  | nil => rfl
  | cons p ps ih => simp [expectChars, ih]

theorem isDigitChar_digitChar (d : Nat) (h : d < 10) :
    isDigitChar (digitChar d) = true := by
  interval_cases d <;> decide

theorem digitVal_digitChar (d : Nat) (h : d < 10) : digitVal (digitChar d) = d := by
  interval_cases d <;> decide

theorem natCharsAux_spec (fuel : Nat) : ∀ n, n < fuel →
    natCharsAux fuel n ≠ [] ∧
    (∀ c ∈ natCharsAux fuel n, isDigitChar c = true) ∧
    ∀ acc : Nat, (natCharsAux fuel n).foldl (fun a c => a * 10 + digitVal c) acc =
      acc * 10 ^ (natCharsAux fuel n).length + n := by
  induction fuel with
  | zero => intro n h; omega
  | succ f ih =>
    intro n _
    by_cases h10 : n < 10
    · refine ⟨by simp [natCharsAux, h10], ?_, ?_⟩
      · intro c hc
        simp [natCharsAux, h10] at hc
        simpa [hc] using isDigitChar_digitChar n h10
      · intro acc
        simp [natCharsAux, h10, digitVal_digitChar n h10]
    · have hdiv : n / 10 < n := Nat.div_lt_self (by omega) (by omega)
      obtain ⟨hne, hdig, hfold⟩ := ih (n / 10) (by omega)
      have hmod : n % 10 < 10 := Nat.mod_lt n (by omega)
      refine ⟨by simp [natCharsAux, h10], ?_, ?_⟩
      · intro c hc
        simp [natCharsAux, h10] at hc
        rcases hc with hc | hc
        · exact hdig c hc
        · simpa [hc] using isDigitChar_digitChar _ hmod
      · intro acc
        have hdm : 10 * (n / 10) + n % 10 = n := Nat.div_add_mod n 10
        simp [natCharsAux, h10, List.foldl_append, hfold acc,
          digitVal_digitChar _ hmod, pow_succ, ← mul_assoc]
        omega

theorem parseNatAux_append : ∀ (ds : List Char) (acc : Nat) (rest : List Char),
    (∀ c ∈ ds, isDigitChar c = true) → noDigitHead rest →
    parseNatAux (ds ++ rest) acc = (ds.foldl (fun a c => a * 10 + digitVal c) acc, rest) := by
  intro ds
  induction ds with
  | nil =>
    intro acc rest _ hrest
    cases rest with
    | nil => rfl
    | cons c cs =>
      simp [noDigitHead] at hrest
      simp [parseNatAux, hrest]
  | cons d ds ih =>
    intro acc rest hdig hrest
    have hd : isDigitChar d = true := hdig d (by simp)
    simp only [List.cons_append, parseNatAux, hd, if_true, List.foldl_cons]
    exact ih _ rest (fun c hc => hdig c (by simp [hc])) hrest

theorem parseNat_natChars (n : Nat) (rest : List Char) (h : noDigitHead rest) :
    parseNat (natChars n ++ rest) = some (n, rest) := by
  obtain ⟨hne, hdig, hfold⟩ := natCharsAux_spec (n + 1) n (by omega)
  rcases hA : natCharsAux (n + 1) n with _ | ⟨d, ds⟩
  · exact absurd hA hne
  · have hd : isDigitChar d = true := hdig d (by rw [hA]; simp)
    have hds : ∀ c ∈ ds, isDigitChar c = true := fun c hc => hdig c (by rw [hA]; simp [hc])
    have h0 := hfold 0
    rw [hA] at h0
    simp only [List.foldl_cons, List.length_cons, Nat.zero_mul, Nat.zero_add] at h0
    simp only [natChars, hA, List.cons_append, parseNat, hd, if_true]
    rw [parseNatAux_append ds (digitVal d) rest hds h]
    simp [h0]

theorem parseInt_intChars (n : Int) (rest : List Char) (h : noDigitHead rest) :
    parseInt (intChars n ++ rest) = some (n, rest) := by
  by_cases hn : n < 0
  · simp only [intChars, hn, if_true, List.cons_append, parseInt, if_pos rfl]
    rw [parseNat_natChars _ rest h]
    have : ((-n).toNat : Int) = -n := Int.toNat_of_nonneg (by omega)
    simp [this]
  · obtain ⟨hne, hdig, _⟩ := natCharsAux_spec (n.toNat + 1) n.toNat (by omega)
    rcases hA : natCharsAux (n.toNat + 1) n.toNat with _ | ⟨d, ds⟩
    · exact absurd hA hne
    · have hd : isDigitChar d = true := hdig d (by rw [hA]; simp)
      have hdash : ¬(d = '-') := by
        intro he
        rw [he] at hd
        exact absurd hd (by decide)
      have hpn := parseNat_natChars n.toNat rest h
      rw [natChars, hA] at hpn
      simp only [intChars, hn, if_false, natChars, hA, List.cons_append, parseInt, hdash,
        if_false] at hpn ⊢
      rw [hpn]
      simp [Int.toNat_of_nonneg (by omega : (0:Int) ≤ n)]

theorem noDigitHead_comma (t : List Char) : noDigitHead (',' :: t) := by
  simp only [noDigitHead]
  decide

theorem noDigitHead_rbrace (t : List Char) : noDigitHead ('\x7d' :: t) := by
  simp only [noDigitHead]
  decide

theorem parseItem_serializeItemChars (i : ReqItem) (rest : List Char) :
    parseItem (serializeItemChars i ++ rest) = some (i, rest) := by
  obtain ⟨iid, iq, ip⟩ := i
  cases ip <;>
    simp [serializeItemChars, parseItem, idKey, qtyKey, priceKey, expectChars,
      List.append_assoc, parseInt_intChars, noDigitHead_comma, noDigitHead_rbrace]

theorem length_serializeItemChars (i : ReqItem) : 0 < (serializeItemChars i).length := by
  cases hp : i.price <;> simp [serializeItemChars, hp, idKey]

theorem length_serializeItemsAux : ∀ l : List ReqItem, l.length ≤ (serializeItemsAux l).length := by
  intro l
  induction l with
  | nil => simp [serializeItemsAux]
  | cons i is ih =>
    cases is with
    | nil =>
      have := length_serializeItemChars i
      simp only [serializeItemsAux, List.length_append, List.length_cons, List.length_nil]
      omega
    | cons j js =>
      have h1 := length_serializeItemChars i
      simp only [serializeItemsAux, List.length_append, List.length_cons] at ih ⊢
      omega

theorem parseItemsCore_serializeItemsAux :
    ∀ (l : List ReqItem) (fuel : Nat) (rest : List Char), l ≠ [] → l.length ≤ fuel →
    parseItemsCore fuel (serializeItemsAux l ++ rest) = some (l, rest) := by
  intro l
  induction l with
  | nil => intro _ _ h _; exact absurd rfl h
  | cons i is ih =>
    intro fuel rest _ hlen
    cases fuel with
    | zero => simp at hlen
    | succ f =>
      cases is with
      | nil =>
        simp [serializeItemsAux, parseItemsCore, parseItem_serializeItemChars,
          List.append_assoc]
      | cons j js =>
        have hihs := ih f rest (by simp) (by simp at hlen ⊢; omega)
        have hstep : serializeItemsAux (i :: j :: js) ++ rest =
            serializeItemChars i ++ (',' :: (serializeItemsAux (j :: js) ++ rest)) := by
          simp [serializeItemsAux, List.append_assoc]
        rw [hstep]
        simp [parseItemsCore, parseItem_serializeItemChars, hihs]

theorem serializeItemsAux_cons_head (i : ReqItem) (is : List ReqItem) :
    ∃ t, serializeItemsAux (i :: is) = '\x7b' :: t := by
  cases hp : i.price <;> cases is <;>
    simp [serializeItemsAux, serializeItemChars, hp, idKey]

/-- Round trip: parsing a serialized item list recovers exactly the list. -/
theorem parseItems_serializeItems (l : List ReqItem) :
    parseItems (serializeItems l) = some l := by
  cases l with
  | nil => rfl
  | cons i is =>
    obtain ⟨t, ht⟩ := serializeItemsAux_cons_head i is
    have hlen := length_serializeItemsAux (i :: is)
    have hcore := parseItemsCore_serializeItemsAux (i :: is)
      (serializeItemsAux (i :: is)).length [] (by simp) hlen
    rw [List.append_nil] at hcore
    rw [ht] at hcore
    simp only [List.length_cons] at hcore
    simp [serializeItems, parseItems, ht, hcore]

theorem find?_stockUpd (pid q x : Int) : ∀ l : List Product,
    (l.map (fun p => if p.id == pid then { p with stock := p.stock - q } else p)).find?
        (fun p => p.id == x) =
      (l.find? (fun p => p.id == x)).map
        (fun p => if p.id == pid then { p with stock := p.stock - q } else p) := by
  intro l
  have hp : ((fun p : Product => p.id == x) ∘ fun p =>
      if p.id == pid then { p with stock := p.stock - q } else p) =
      fun p : Product => p.id == x := by
    funext p
    by_cases hz : p.id = pid <;> simp [Function.comp, hz]
  rw [List.find?_map, hp]

theorem findProduct_updateStock (db : Db) (pid q x : Int) :
    findProduct (updateStock db pid q) x =
      (findProduct db x).map
        (fun p => if p.id == pid then { p with stock := p.stock - q } else p) := by
  simp only [findProduct, updateStock]
  exact find?_stockUpd pid q x db.products

theorem findProduct_id {db : Db} {pid : Int} {p : Product}
    (h : findProduct db pid = some p) : p.id = pid := by
  have := List.find?_some h
  simpa using this

theorem priceOf_updateStock (db : Db) (pid q x : Int) :
    priceOf (updateStock db pid q) x = priceOf db x := by
  simp only [priceOf, findProduct_updateStock]
  cases findProduct db x with
  | none => rfl
  | some p => by_cases h : p.id = pid <;> simp [h]

theorem stockOf_updateStock_self (db : Db) (pid q : Int) :
    stockOf (updateStock db pid q) pid = (stockOf db pid).map (fun s => s - q) := by
  simp only [stockOf, findProduct_updateStock]
  cases h : findProduct db pid with
  | none => rfl
  | some p =>
    have := findProduct_id h
    simp [this]

theorem ledgerTotal_updateStock (db : Db) (pid q : Int) (items : List ReqItem) :
    ledgerTotal (updateStock db pid q) items = ledgerTotal db items := by
  simp [ledgerTotal, priceOf_updateStock]

theorem updateStock_orders (db : Db) (pid q : Int) :
    (updateStock db pid q).orders = db.orders := rfl

theorem insertOrder_products (db : Db) (o : Order) :
    (insertOrder db o).products = db.products := rfl

theorem applyDecrements_orders : ∀ (items : List ReqItem) (db : Db),
    (applyDecrements db items).orders = db.orders := by
  intro items
  induction items with
  | nil => intro db; rfl
  | cons i rest ih =>
    intro db
    show (applyDecrements (updateStock db i.id i.quantity) rest).orders = db.orders
    rw [ih, updateStock_orders]

theorem checkItems_ok : ∀ (items : List ReqItem) (db : Db) (t : Int),
    checkItems db items = .ok t → t = ledgerTotal db items := by
  intro items
  induction items with
  | nil =>
    intro db t h
    simp [checkItems] at h
    simp [ledgerTotal, ← h]
  | cons i rest ih =>
    intro db t h
    simp only [checkItems] at h
    cases hf : findProduct db i.id with
    | none => rw [hf] at h; simp at h
    | some p =>
      rw [hf] at h
      by_cases hs : p.stock < i.quantity
      · simp [hs] at h
      · simp only [hs, if_false, reduceIte] at h
        cases hr : checkItems db rest with
        | error e => rw [hr] at h; simp at h
        | ok t' =>
          rw [hr] at h
          simp only [Except.ok.injEq] at h
          have := ih db t' hr
          simp [ledgerTotal, priceOf, hf, ← h, this]

theorem checkItems_found : ∀ (items : List ReqItem) (db : Db) (t : Int),
    checkItems db items = .ok t → ∀ i ∈ items, ∃ p, findProduct db i.id = some p := by
  intro items
  induction items with
  | nil => intro db t _ i hi; simp at hi
  | cons j rest ih =>
    intro db t h i hi
    simp only [checkItems] at h
    cases hf : findProduct db j.id with
    | none => rw [hf] at h; simp at h
    | some p =>
      rw [hf] at h
      by_cases hs : p.stock < j.quantity
      · simp [hs] at h
      · simp only [hs, if_false, reduceIte] at h
        cases hr : checkItems db rest with
        | error e => rw [hr] at h; simp at h
        | ok t' =>
          rcases List.mem_cons.mp hi with hij | hir
          · exact ⟨p, hij ▸ hf⟩
          · exact ih db t' hr i hir

theorem webhookItemsLoop_total : ∀ (items : List ReqItem) (db : Db),
    (webhookItemsLoop items db).1 = ledgerTotal db items := by
  intro items
  induction items with
  | nil => intro db; simp [webhookItemsLoop, ledgerTotal]
  | cons i rest ih =>
    intro db
    cases hf : findProduct db i.id with
    | none =>
      simp [webhookItemsLoop, hf, ih db, ledgerTotal, priceOf, List.map_cons, List.sum_cons]
    | some p =>
      simp only [webhookItemsLoop, hf, ih (updateStock db i.id i.quantity),
        ledgerTotal_updateStock]
      simp [ledgerTotal, priceOf, hf, List.map_cons, List.sum_cons]

theorem webhookItemsLoop_orders : ∀ (items : List ReqItem) (db : Db),
    (webhookItemsLoop items db).2.1.orders = db.orders := by
  intro items
  induction items with
  | nil => intro db; rfl
  | cons i rest ih =>
    intro db
    cases hf : findProduct db i.id with
    | none => simp [webhookItemsLoop, hf, ih db]
    | some p => simp [webhookItemsLoop, hf, ih (updateStock db i.id i.quantity), updateStock_orders]

theorem apiOrders_success (req : OrderRequest) (c : Bool) (db : Db) (o : Order) (db2 : Db)
    (h : apiOrders req c db = (.success o, db2)) :
    o = { email := req.email, products := serializeItems (req.items.getD []),
          total := ledgerTotal db (req.items.getD []), status := "paid" } ∧
    db2 = insertOrder (applyDecrements db (req.items.getD [])) o := by
  simp only [apiOrders] at h
  split at h
  · simp at h
  · split at h
    · simp at h
    · rename_i total heq
      split at h
      · simp at h
      · simp only [Prod.mk.injEq, ApiResult.success.injEq] at h
        obtain ⟨ho, hdb⟩ := h
        have ht := checkItems_ok _ db total heq
        subst hdb
        constructor
        · rw [← ho, ht]
        · rw [ho]

theorem webhook_completed (ev : Event) (db : Db)
    (ht : ev.type = "checkout.session.completed") :
    (webhook (some ev) db).1 = .received ∧
    (webhook (some ev) db).2.1 =
      insertOrder (webhookItemsLoop (effectiveItems ev db) db).2.1
        { email := ev.session.customer_email,
          products := serializeItems (effectiveItems ev db),
          total := ledgerTotal db (effectiveItems ev db), status := "paid" } := by
  simp [webhook, ht, webhookItemsLoop_total]

theorem webhook_other (ev : Event) (db : Db)
    (ht : ¬ev.type = "checkout.session.completed") :
    webhook (some ev) db = (.received, db, [.sigVerify]) := by
  simp [webhook, ht]

theorem webhook_inserted (ev : Event) (db : Db) (o : Order)
    (h : (webhook (some ev) db).2.1.orders = db.orders ++ [o]) :
    o = { email := ev.session.customer_email,
          products := serializeItems (effectiveItems ev db),
          total := ledgerTotal db (effectiveItems ev db), status := "paid" } := by
  by_cases ht : ev.type = "checkout.session.completed"
  · have hw := (webhook_completed ev db ht).2
    rw [hw] at h
    simp only [insertOrder] at h
    rw [webhookItemsLoop_orders] at h
    have hc := List.append_cancel_left h
    simp only [List.cons.injEq, and_true] at hc
    exact hc.symm
  · rw [webhook_other ev db ht] at h
    have := congrArg List.length h
    simp at this

theorem webhook_orders_sub (v : Option Event) (db : Db) (o : Order)
    (h : o ∈ (webhook v db).2.1.orders) : o ∈ db.orders ∨ o.status = "paid" := by
  cases v with
  | none => exact .inl h
  | some ev =>
    by_cases ht : ev.type = "checkout.session.completed"
    · rw [(webhook_completed ev db ht).2] at h
      simp only [insertOrder] at h
      rw [webhookItemsLoop_orders] at h
      rcases List.mem_append.mp h with hm | hm
      · exact .inl hm
      · simp only [List.mem_singleton] at hm
        subst hm
        exact .inr rfl
    · rw [webhook_other ev db ht] at h
      exact .inl h

theorem vercelHandler_completed (ev : Event) (db : Db)
    (ht : ev.type = "checkout.session.completed") :
    (vercelHandler "POST" (some ev) db).1 = .received ∧
    (vercelHandler "POST" (some ev) db).2.1 =
      insertOrder (webhookItemsLoop (manifestItems ev.session) db).2.1
        { email := ev.session.customer_email,
          products := serializeItems (manifestItems ev.session),
          total := ledgerTotal db (manifestItems ev.session), status := "paid" } := by
  simp [vercelHandler, ht, webhookItemsLoop_total]

theorem vercelHandler_other (ev : Event) (db : Db)
    (ht : ¬ev.type = "checkout.session.completed") :
    vercelHandler "POST" (some ev) db = (.received, db, [.sigVerify]) := by
  simp [vercelHandler, ht]

theorem vercelHandler_orders_sub (m : String) (v : Option Event) (db : Db) (o : Order)
    (h : o ∈ (vercelHandler m v db).2.1.orders) : o ∈ db.orders ∨ o.status = "paid" := by
  by_cases hm : m = "POST"
  · subst hm
    cases v with
    | none => exact .inl h
    | some ev =>
      by_cases ht : ev.type = "checkout.session.completed"
      · rw [(vercelHandler_completed ev db ht).2] at h
        simp only [insertOrder] at h
        rw [webhookItemsLoop_orders] at h
        rcases List.mem_append.mp h with hm | hm
        · exact .inl hm
        · simp only [List.mem_singleton] at hm
          subst hm
          exact .inr rfl
      · rw [vercelHandler_other ev db ht] at h
        exact .inl h
  · have : vercelHandler m v db = (.methodNotAllowed, db, []) := by
      simp [vercelHandler, hm]
    rw [this] at h
    exact .inl h

theorem stockOf_insertOrder (db : Db) (o : Order) (pid : Int) :
    stockOf (insertOrder db o) pid = stockOf db pid := rfl

theorem effectiveItems_of_empty (ev : Event) (db : Db)
    (hm : manifestItems ev.session = [])
    (hf : strTruthy ev.session.customer_email = true →
      findLatestByEmail db (ev.session.customer_email.getD "") = none) :
    effectiveItems ev db = [] := by
  unfold effectiveItems
  rw [hm]
  by_cases he : strTruthy ev.session.customer_email
  · simp [he, hf he]
  · simp [he]

theorem apiOrders_orders_sub (req : OrderRequest) (c : Bool) (db : Db) (o : Order)
    (h : o ∈ (apiOrders req c db).2.orders) : o ∈ db.orders ∨ o.status = "paid" := by
  simp only [apiOrders] at h
  split at h
  · exact .inl h
  · split at h
    · exact .inl h
    · split at h
      · exact .inl h
      · simp only [insertOrder, applyDecrements_orders, List.mem_append] at h
        rcases h with hm | hm
        · exact .inl hm
        · simp only [List.mem_singleton] at hm
          subst hm
          exact .inr rfl

/-- C1: the spec requires webhook fulfillment to be idempotent per `eventId`
(at most one Order row and one stock decrement no matter how often the
same event is delivered).  The handler never consults the event id and has
no deduplication log: delivering the identical `checkout.session.completed`
event twice to a ledger holding product 1 with stock 5 leaves two Order
rows and a stock of 3 (two decrements), where the claim demands one row
and stock 4. -/
theorem C1_duplicate_event_reapplied :
    ((webhook (some ⟨"evt_1", "checkout.session.completed",
        ⟨some "a@b.c", some "[\x7b\"id\":1,\"quantity\":1\x7d]"⟩⟩)
        ⟨[⟨1, 20, 5⟩], []⟩).2.1.orders.length = 1 ∧
      stockOf (webhook (some ⟨"evt_1", "checkout.session.completed",
        ⟨some "a@b.c", some "[\x7b\"id\":1,\"quantity\":1\x7d]"⟩⟩)
        ⟨[⟨1, 20, 5⟩], []⟩).2.1 1 = some 4) ∧
    ((webhook (some ⟨"evt_1", "checkout.session.completed",
        ⟨some "a@b.c", some "[\x7b\"id\":1,\"quantity\":1\x7d]"⟩⟩)
      (webhook (some ⟨"evt_1", "checkout.session.completed",
        ⟨some "a@b.c", some "[\x7b\"id\":1,\"quantity\":1\x7d]"⟩⟩)
        ⟨[⟨1, 20, 5⟩], []⟩).2.1).2.1.orders.length = 2 ∧
      stockOf (webhook (some ⟨"evt_1", "checkout.session.completed",
        ⟨some "a@b.c", some "[\x7b\"id\":1,\"quantity\":1\x7d]"⟩⟩)
      (webhook (some ⟨"evt_1", "checkout.session.completed",
        ⟨some "a@b.c", some "[\x7b\"id\":1,\"quantity\":1\x7d]"⟩⟩)
        ⟨[⟨1, 20, 5⟩], []⟩).2.1).2.1 1 = some 3) := by
  decide

/-- C2: the spec requires that stock never go negative and that a request
whose quantity exceeds current stock fail without decrementing.  The
webhook fulfillment loop decrements unconditionally: a verified event
requesting quantity 5 of product 1 while its stock is 2 is acknowledged
as received and drives the stock to -3. -/
theorem C2_webhook_drives_stock_negative :
    stockOf (webhook (some ⟨"evt_2", "checkout.session.completed",
        ⟨some "b@c.d", some "[\x7b\"id\":1,\"quantity\":5\x7d]"⟩⟩)
        ⟨[⟨1, 20, 2⟩], []⟩).2.1 1 = some (-3) ∧
    (webhook (some ⟨"evt_2", "checkout.session.completed",
        ⟨some "b@c.d", some "[\x7b\"id\":1,\"quantity\":5\x7d]"⟩⟩)
        ⟨[⟨1, 20, 2⟩], []⟩).1 = .received := by
  decide

/-- C3 counterexample: a `checkout.session.completed` event with no
metadata manifest and no prior order for its e-mail still causes an Order
row to be inserted (the claim asserts no Order row is created). -/
theorem C3_counterexample_order_row_created :
    (webhook (some ⟨"evt_3", "checkout.session.completed", ⟨some "c@d.e", none⟩⟩)
        ⟨[⟨1, 20, 5⟩], []⟩).2.1.orders.length = 1 := by
  decide

/-- C3 amended: for a `checkout.session.completed` event whose manifest is
absent, unparsable or empty and whose e-mail has no prior order, the
handler mutates no product stock and still acknowledges success, but it
does create one Order row, with an empty serialized item list, total 0 and
status `paid`. -/
theorem C3_empty_manifest_ack_no_stock_but_row (ev : Event) (db : Db)
    (ht : ev.type = "checkout.session.completed")
    (hm : manifestItems ev.session = [])
    (hf : strTruthy ev.session.customer_email = true →
      findLatestByEmail db (ev.session.customer_email.getD "") = none) :
    (webhook (some ev) db).1 = .received ∧
    hookStatus (webhook (some ev) db).1 = 200 ∧
    (webhook (some ev) db).2.1.products = db.products ∧
    (webhook (some ev) db).2.1.orders = db.orders ++
      [{ email := ev.session.customer_email, products := serializeItems [],
         total := 0, status := "paid" }] := by
  have heff := effectiveItems_of_empty ev db hm hf
  obtain ⟨h1, h2⟩ := webhook_completed ev db ht
  rw [heff] at h2
  refine ⟨h1, by rw [h1]; rfl, ?_, ?_⟩
  · rw [h2]
    rfl
  · rw [h2]
    rfl

/-- C3 amended witness: concrete instance with an absent manifest and an
empty order store. -/
theorem C3_empty_manifest_ack_no_stock_but_row_witness :
    (webhook (some ⟨"evt_3", "checkout.session.completed", ⟨some "c@d.e", none⟩⟩)
        ⟨[⟨1, 20, 5⟩], []⟩).1 = .received ∧
    hookStatus (webhook (some ⟨"evt_3", "checkout.session.completed",
        ⟨some "c@d.e", none⟩⟩) ⟨[⟨1, 20, 5⟩], []⟩).1 = 200 ∧
    (webhook (some ⟨"evt_3", "checkout.session.completed", ⟨some "c@d.e", none⟩⟩)
        ⟨[⟨1, 20, 5⟩], []⟩).2.1.products = (⟨[⟨1, 20, 5⟩], []⟩ : Db).products ∧
    (webhook (some ⟨"evt_3", "checkout.session.completed", ⟨some "c@d.e", none⟩⟩)
        ⟨[⟨1, 20, 5⟩], []⟩).2.1.orders = (⟨[⟨1, 20, 5⟩], []⟩ : Db).orders ++
      [{ email := some "c@d.e", products := serializeItems [], total := 0,
         status := "paid" }] :=
  C3_empty_manifest_ack_no_stock_but_row
    ⟨"evt_3", "checkout.session.completed", ⟨some "c@d.e", none⟩⟩
    ⟨[⟨1, 20, 5⟩], []⟩ rfl (by decide) (by decide)

/-- C4: every Order row created by the direct path or the webhook path
stores a total equal to the sum, over the line items serialized into the
row, of the ledger price at fulfillment time multiplied by the requested
quantity (`ledgerTotal` reads only the database price; a line item whose
product is absent from the ledger contributes 0, matching the webhook
`continue`).  Client-supplied prices never enter the total. -/
theorem C4_totals_from_ledger :
    (∀ (req : OrderRequest) (chargeOk : Bool) (db : Db) (o : Order) (db2 : Db),
      apiOrders req chargeOk db = (.success o, db2) →
      o.total = ledgerTotal db ((parseItems o.products).getD [])) ∧
    (∀ (ev : Event) (db : Db) (o : Order),
      (webhook (some ev) db).2.1.orders = db.orders ++ [o] →
      o.total = ledgerTotal db ((parseItems o.products).getD [])) := by
  constructor
  · intro req c db o db2 h
    obtain ⟨ho, _⟩ := apiOrders_success req c db o db2 h
    subst ho
    simp [parseItems_serializeItems]
  · intro ev db o h
    have ho := webhook_inserted ev db o h
    subst ho
    simp [parseItems_serializeItems]

/-- C4 witness: a concrete successful direct order whose stored total is
the ledger total of its stored items. -/
theorem C4_totals_from_ledger_witness :
    (Order.mk (some "a@b.c") (serializeItems [⟨1, 2, none⟩]) 40 "paid").total =
      ledgerTotal ⟨[⟨1, 20, 5⟩], []⟩
        ((parseItems (Order.mk (some "a@b.c") (serializeItems [⟨1, 2, none⟩]) 40
          "paid").products).getD []) :=
  C4_totals_from_ledger.1 ⟨some "a@b.c", some [⟨1, 2, none⟩], some "pm_1"⟩ true
    ⟨[⟨1, 20, 5⟩], []⟩
    (Order.mk (some "a@b.c") (serializeItems [⟨1, 2, none⟩]) 40 "paid")
    ⟨[⟨1, 20, 3⟩], [Order.mk (some "a@b.c") (serializeItems [⟨1, 2, none⟩]) 40 "paid"]⟩
    (by decide)

/-- C5 counterexample: the checkout-session handler takes the gateway unit
price from the caller-supplied `price` field (`Math.round((i.price || 0) *
100)`), not from the product catalog — it performs no catalog read at
all.  Two requests naming the same product and quantity but different
caller prices produce different unit amounts, refuting "sourced from the
ledger, never taken from the caller-supplied request body". -/
theorem C5_counterexample_client_price_in_session :
    ((createCheckoutSession ⟨some "a@b.c", [⟨1, 1, some 999, none⟩]⟩).line_items.map
        (fun li => li.unit_amount) = [99900]) ∧
    ((createCheckoutSession ⟨some "a@b.c", [⟨1, 1, some 5, none⟩]⟩).line_items.map
        (fun li => li.unit_amount) = [500]) ∧
    (99900 : Int) ≠ 500 := by
  decide

/-- C5 amended: for every checkout-session creation request the unit
prices of the gateway line items are the caller-supplied item prices
(defaulting to 0 when absent) times 100 — the catalog is never consulted —
while the session metadata does embed exactly the `{productId, quantity}`
manifest of the requested items (recoverable by parsing). -/
theorem C5_session_prices_and_manifest (req : CheckoutSessionRequest) :
    ((createCheckoutSession req).line_items.map (fun li => li.unit_amount) =
      req.items.map (fun i => (i.price.getD 0) * 100)) ∧
    parseItems (createCheckoutSession req).metadata_items =
      some (req.items.map (fun i => { id := i.id, quantity := i.quantity, price := none })) := by
  constructor
  · simp [createCheckoutSession, toLineItem]
  · simp [createCheckoutSession, manifestOf, parseItems_serializeItems]

/-- C6: a direct order for a single product with quantity exactly equal to
the remaining stock succeeds and leaves that product stock at exactly 0;
with quantity one more than the remaining stock it fails with the
insufficient-stock inventory error and leaves the database unchanged. -/
theorem C6_boundary_exact_stock (db : Db) (e pm : String) (pid : Int) (pr : Option Int)
    (p : Product) (hp : findProduct db pid = some p) (he : ¬e = "") (hpm : ¬pm = "") :
    (∃ o, apiOrders ⟨some e, some [⟨pid, p.stock, pr⟩], some pm⟩ true db =
      (.success o, insertOrder (applyDecrements db [⟨pid, p.stock, pr⟩]) o)) ∧
    stockOf (apiOrders ⟨some e, some [⟨pid, p.stock, pr⟩], some pm⟩ true db).2 pid = some 0 ∧
    apiOrders ⟨some e, some [⟨pid, p.stock + 1, pr⟩], some pm⟩ true db =
      (.inventoryError (.insufficientStock pid), db) := by
  have hval : ∀ its : List ReqItem, its ≠ [] →
      (!(strTruthy (some e)) || !(itemsTruthy (some its)) || !(strTruthy (some pm))) = false := by
    intro its hits
    simp [strTruthy, itemsTruthy, he, hpm, hits]
  have hchk : checkItems db [(⟨pid, p.stock, pr⟩ : ReqItem)] = .ok (p.price * p.stock) := by
    simp [checkItems, hp]
  have hchk2 : checkItems db [(⟨pid, p.stock + 1, pr⟩ : ReqItem)] =
      .error (.insufficientStock pid) := by
    simp [checkItems, hp]
  have h1 : apiOrders ⟨some e, some [⟨pid, p.stock, pr⟩], some pm⟩ true db =
      (.success (Order.mk (some e) (serializeItems [⟨pid, p.stock, pr⟩])
          (p.price * p.stock) "paid"),
        insertOrder (applyDecrements db [⟨pid, p.stock, pr⟩])
          (Order.mk (some e) (serializeItems [⟨pid, p.stock, pr⟩])
            (p.price * p.stock) "paid")) := by
    simp only [apiOrders, hval [⟨pid, p.stock, pr⟩] (by simp), Bool.false_eq_true, if_false,
      reduceIte, Option.getD_some, hchk, Bool.not_true]
  refine ⟨⟨_, h1⟩, ?_, ?_⟩
  · rw [h1]
    show stockOf (insertOrder (applyDecrements db [⟨pid, p.stock, pr⟩]) _) pid = some 0
    rw [stockOf_insertOrder]
    show stockOf (updateStock db pid p.stock) pid = some 0
    rw [stockOf_updateStock_self]
    simp [stockOf, hp]
  · simp only [apiOrders, hval [⟨pid, p.stock + 1, pr⟩] (by simp), Bool.false_eq_true, if_false,
      reduceIte, Option.getD_some, hchk2]

/-- C6 witness: product 1 with stock 3; ordering quantity 3 succeeds and
zeroes the stock, ordering quantity 4 fails and leaves the database as it
was. -/
theorem C6_boundary_exact_stock_witness :
    (∃ o, apiOrders ⟨some "a@b.c", some [⟨1, (3 : Int), none⟩], some "pm_1"⟩ true
        ⟨[⟨1, 20, 3⟩], []⟩ =
      (.success o, insertOrder (applyDecrements ⟨[⟨1, 20, 3⟩], []⟩ [⟨1, (3 : Int), none⟩]) o)) ∧
    stockOf (apiOrders ⟨some "a@b.c", some [⟨1, (3 : Int), none⟩], some "pm_1"⟩ true
      ⟨[⟨1, 20, 3⟩], []⟩).2 1 = some 0 ∧
    apiOrders ⟨some "a@b.c", some [⟨1, (3 : Int) + 1, none⟩], some "pm_1"⟩ true
      ⟨[⟨1, 20, 3⟩], []⟩ =
      (.inventoryError (.insufficientStock 1), ⟨[⟨1, 20, 3⟩], []⟩) :=
  C6_boundary_exact_stock ⟨[⟨1, 20, 3⟩], []⟩ "a@b.c" "pm_1" 1 none ⟨1, 20, 3⟩
    (by decide) (by decide) (by decide)

/-- C7: a webhook delivery whose signature fails verification is rejected
with a 400 client error before any storage access: the database is
returned unchanged and the access trace contains only the signature
check — no product or order row is read or written.  This holds for both
the Express handler and the standalone serverless handler. -/
theorem C7_bad_signature_no_storage :
    (∀ db : Db, webhook none db = (.sigError, db, [.sigVerify]) ∧
      hookStatus (webhook none db).1 = 400 ∧
      (webhook none db).2.2.filter isStorageAccess = []) ∧
    (∀ db : Db, vercelHandler "POST" none db = (.sigError, db, [.sigVerify]) ∧
      vercelStatus (vercelHandler "POST" none db).1 = 400 ∧
      (vercelHandler "POST" none db).2.2.filter isStorageAccess = []) := by
  refine ⟨fun db => ⟨rfl, rfl, rfl⟩, fun db => ⟨?_, ?_, ?_⟩⟩ <;> rfl

/-- C8: the serialized line-items column of every created Order
deserializes to exactly the item list whose ledger total is the stored
total — for the direct path that list is the requested items, for the
webhook path the effective (manifest or recovered) items; and parsing is
a two-sided inverse of the serialization used when inserting. -/
theorem C8_serialized_items_roundtrip :
    (∀ items : List ReqItem, parseItems (serializeItems items) = some items) ∧
    (∀ (req : OrderRequest) (chargeOk : Bool) (db : Db) (o : Order) (db2 : Db),
      apiOrders req chargeOk db = (.success o, db2) →
      parseItems o.products = some (req.items.getD []) ∧
      o.total = ledgerTotal db (req.items.getD [])) ∧
    (∀ (ev : Event) (db : Db) (o : Order),
      (webhook (some ev) db).2.1.orders = db.orders ++ [o] →
      parseItems o.products = some (effectiveItems ev db) ∧
      o.total = ledgerTotal db (effectiveItems ev db)) := by
  refine ⟨parseItems_serializeItems, ?_, ?_⟩
  · intro req c db o db2 h
    obtain ⟨ho, _⟩ := apiOrders_success req c db o db2 h
    subst ho
    simp [parseItems_serializeItems]
  · intro ev db o h
    have ho := webhook_inserted ev db o h
    subst ho
    simp [parseItems_serializeItems]

/-- C8 witness: a concrete direct order whose stored column parses back to
the requested items and whose total is their ledger total. -/
theorem C8_serialized_items_roundtrip_witness :
    parseItems (Order.mk (some "w@x.y") (serializeItems [⟨2, 3, none⟩]) 30 "paid").products =
      some ((some [(⟨2, 3, none⟩ : ReqItem)]).getD []) ∧
    (Order.mk (some "w@x.y") (serializeItems [⟨2, 3, none⟩]) 30 "paid").total =
      ledgerTotal ⟨[⟨2, 10, 7⟩], []⟩ ((some [(⟨2, 3, none⟩ : ReqItem)]).getD []) :=
  C8_serialized_items_roundtrip.2.1 ⟨some "w@x.y", some [⟨2, 3, none⟩], some "pm_2"⟩ true
    ⟨[⟨2, 10, 7⟩], []⟩
    (Order.mk (some "w@x.y") (serializeItems [⟨2, 3, none⟩]) 30 "paid")
    ⟨[⟨2, 10, 4⟩], [Order.mk (some "w@x.y") (serializeItems [⟨2, 3, none⟩]) 30 "paid"]⟩
    (by decide)

/-- C9: every order row written by any handler of this program — the
direct order handler, the Express webhook, or the serverless webhook —
has status `paid`; no path ever writes `failed` or any other status. -/
theorem C9_every_written_order_paid :
    (∀ (req : OrderRequest) (c : Bool) (db : Db) (o : Order),
      o ∈ (apiOrders req c db).2.orders → o ∈ db.orders ∨ o.status = "paid") ∧
    (∀ (v : Option Event) (db : Db) (o : Order),
      o ∈ (webhook v db).2.1.orders → o ∈ db.orders ∨ o.status = "paid") ∧
    (∀ (m : String) (v : Option Event) (db : Db) (o : Order),
      o ∈ (vercelHandler m v db).2.1.orders → o ∈ db.orders ∨ o.status = "paid") :=
  ⟨apiOrders_orders_sub, webhook_orders_sub, vercelHandler_orders_sub⟩

/-- C9 witness: the order inserted by a concrete webhook delivery into an
empty store is not pre-existing, hence has status `paid`. -/
theorem C9_every_written_order_paid_witness :
    Order.mk (some "a@b.c") (serializeItems [⟨1, 1, none⟩]) 20 "paid" ∈
      (⟨[⟨1, 20, 5⟩], []⟩ : Db).orders ∨
    (Order.mk (some "a@b.c") (serializeItems [⟨1, 1, none⟩]) 20 "paid").status = "paid" :=
  C9_every_written_order_paid.2.1
    (some ⟨"evt_1", "checkout.session.completed",
      ⟨some "a@b.c", some "[\x7b\"id\":1,\"quantity\":1\x7d]"⟩⟩)
    ⟨[⟨1, 20, 5⟩], []⟩
    (Order.mk (some "a@b.c") (serializeItems [⟨1, 1, none⟩]) 20 "paid")
    (by decide)

/-- C10: a request to the serverless webhook handler whose method is not
POST is answered with 405 while the database is returned unchanged and
the access trace is empty — no signature verification and no storage
access of any kind. -/
theorem C10_non_post_rejected_without_effects (m : String) (v : Option Event) (db : Db)
    (hm : ¬m = "POST") :
    vercelHandler m v db = (.methodNotAllowed, db, []) ∧
    vercelStatus (vercelHandler m v db).1 = 405 := by
  have h : vercelHandler m v db = (.methodNotAllowed, db, []) := by
    simp [vercelHandler, hm]
  exact ⟨h, by rw [h]; rfl⟩

/-- C10 witness: a GET delivery is rejected with 405 and no effects. -/
theorem C10_non_post_rejected_without_effects_witness :
    vercelHandler "GET" none ⟨[⟨1, 20, 5⟩], []⟩ =
      (.methodNotAllowed, ⟨[⟨1, 20, 5⟩], []⟩, []) ∧
    vercelStatus (vercelHandler "GET" none ⟨[⟨1, 20, 5⟩], []⟩).1 = 405 :=
  C10_non_post_rejected_without_effects "GET" none ⟨[⟨1, 20, 5⟩], []⟩ (by decide)
